import Mathlib

/-! # ecs_task_executor: launch one ECS task and wait for it

A shallow embedding of `ecs_task_executor.go` and the properties of its
launch-and-monitor controller.

Modelling conventions

* A Go pointer field (`*string`, `*int64`) is an `Option`; dereferencing `none`
  is a runtime panic.  Slice elements (`[]*ecs.Task`, `[]*ecs.Container`) are taken
  to be non-nil, as the SDK unmarshaller produces them.
* `os.Exit(c)` and a runtime panic both end the process; they are the two
  constructors of `Halt`.  `int` is 64 bits wide, so `int(x)` is the identity on an
  `int64` and `Halt.osExit` carries the value handed to `os.Exit`.  The exit status
  the parent process observes, `Halt.status`, is the low 8 bits of that value
  (`os.Exit(256)` is seen as 0, `os.Exit(-1)` as 255); a Go program that dies of a
  panic exits with status 2.
* The backend and the clock are the environment `Env`: the outcome of the single
  `RunTask` call, the outcome of the `k`-th `DescribeTasks` call, the reading of
  `time.Now()` at line 72 and the reading taken by the `k`-th evaluation of the
  loop condition.  Instants are integers (nanoseconds); `Time.Add` is addition and
  `Time.After` is `>`.  `time.Duration` is an `int64`, so the product
  `time.Duration(opts.Timeout) * time.Second` wraps modulo `2^64`.
* Standard output is a list of `Line`s.  The elapsed time shown in a status line
  is not part of the model (it needs further clock readings and decides nothing).
* The polling loop is run with fuel: `fuel` bounds the number of evaluations of
  the loop condition, and `none` means the fuel ran out.
-/

namespace EcsTaskExecutor

/-! ## Data model -/

/-- The command-line options, `type Options struct`. -/
structure Options where
  Cluster : String
  TaskDef : String
  Name : String
  Command : String
  Timeout : Int
deriving DecidableEq, Repr

/-- The fields of `ecs.Container` the program can observe. -/
structure Container where
  Name : Option String
  LastStatus : Option String
  Reason : Option String
  ExitCode : Option Int
deriving DecidableEq, Repr

/-- The fields of `ecs.Task` the program reads. -/
structure Task where
  TaskArn : Option String
  LastStatus : Option String
  Containers : List Container
deriving DecidableEq, Repr

/-- An entry of a response's `Failures` list, `ecs.Failure`. -/
structure Failure where
  Arn : Option String
  Reason : Option String
deriving DecidableEq, Repr

/-- The response of `RunTask`, `ecs.RunTaskOutput`. -/
structure RunTaskOutput where
  Failures : List Failure
  Tasks : List Task
deriving DecidableEq, Repr

/-- The response of `DescribeTasks`, `ecs.DescribeTasksOutput`. -/
structure DescribeTasksOutput where
  Failures : List Failure
  Tasks : List Task
deriving DecidableEq, Repr

/-- A Go `error` value as the program inspects it: either it implements
`awserr.Error` (with its `Code()` and the text of `Error()`), or it does not. -/
inductive GoError where
  | aws (code : String) (text : String)
  | other (text : String)
deriving DecidableEq, Repr

/-- One line written to standard output. -/
inductive Line where
  | text (s : String)
  | status (lastStatus : String)
  | container (con : Container)
deriving DecidableEq, Repr

/-- A call made to the backend, with its arguments. -/
inductive Call where
  | runTask (cluster : String) (taskDefinition : String) (name : String)
      (command : List String)
  | describeTasks (cluster : String) (tasks : List String)
deriving DecidableEq, Repr

/-- How the process ends: `os.Exit(code)`, or a runtime panic (index out of
range, nil dereference). -/
inductive Halt where
  | osExit (code : Int)
  | runtimePanic
deriving DecidableEq, Repr

/-- The exit status the parent process observes: the operating system keeps the
low 8 bits of the value handed to `os.Exit`; a panic exits with status 2. -/
def Halt.status : Halt → Int
  | .osExit code => code % 256
  | .runtimePanic => 2

/-- A finished run: the backend calls made, in order, the lines printed, and how
the process ended. -/
structure Result where
  calls : List Call
  out : List Line
  halt : Halt
deriving DecidableEq, Repr

/-- The environment of a run. -/
structure Env where
  /-- The outcome of `parser.Parse()`. -/
  args : Except String Options
  /-- The outcome of `svc.RunTask(runInput)`. -/
  runTask : Except GoError RunTaskOutput
  /-- The outcome of the `k`-th call `svc.DescribeTasks(describeInput)`. -/
  describeTasks : Nat → Except GoError DescribeTasksOutput
  /-- The reading `startAt := time.Now()`. -/
  startAt : Int
  /-- The reading of `time.Now()` in the `k`-th evaluation of the loop condition. -/
  now : Nat → Int

/-! ## Constants of the SDK and of package `time` -/

def ErrCodeServerException : String := "ServerException"
def ErrCodeClientException : String := "ClientException"
def ErrCodeInvalidParameterException : String := "InvalidParameterException"
def ErrCodeClusterNotFoundException : String := "ClusterNotFoundException"
def ErrCodeUnsupportedFeatureException : String := "UnsupportedFeatureException"
def ErrCodePlatformUnknownException : String := "PlatformUnknownException"
def ErrCodePlatformTaskDefinitionIncompatibilityException : String :=
  "PlatformTaskDefinitionIncompatibilityException"
def ErrCodeAccessDeniedException : String := "AccessDeniedException"
def ErrCodeBlockedException : String := "BlockedException"

/-- The constant `time.Second`, in nanoseconds. -/
def Second : Int := 1000000000

/-- Two's-complement wrap-around of an `int64` result. -/
def wrapInt64 (x : Int) : Int := (x + 2 ^ 63) % 2 ^ 64 - 2 ^ 63

/-- The expression `time.Duration(opts.Timeout) * time.Second`. -/
def timeoutDuration (opts : Options) : Int := wrapInt64 (opts.Timeout * Second)

/-! ## The functions of the program -/

/-- `validate`: the lines printed and the error returned (`none` is `nil`). -/
def validate (opts : Options) : List Line × Option String :=
  if opts.Cluster = "" then
    ([], some "[OPTION VALIDATION ERROR] --cluster option is required.")
  else if opts.TaskDef = "" then
    ([], some "[OPTION VALIDATION ERROR] -t option is required.")
  else if opts.Name = "" then
    ([], some "[OPTION VALIDATION ERROR] -n option is required.")
  else if opts.Command = "" then
    ([], some "[OPTION VALIDATION ERROR] -c option is required.")
  else
    ([Line.text ("Set timeout as " ++ toString opts.Timeout ++ " sec.")], none)

/-- The call `strings.Split(s, " ")`: the separator is the one-character string
made of a space, so the result is the list of segments between spaces. -/
def splitSpace (s : String) : List String :=
  (s.toList.splitOn ' ').map String.mk

/-- `formatCommand`: every element of the split is copied to the result. -/
def formatCommand (cmd : String) : List String :=
  (splitSpace cmd).foldl (fun fmtCommand c => fmtCommand ++ [c]) []

/-- `parseRunTaskErr`: the line it prints. -/
def parseRunTaskErr (err : GoError) : Line :=
  match err with
  | .aws code text =>
    if code = ErrCodeServerException then
      Line.text (ErrCodeServerException ++ " " ++ text)
    else if code = ErrCodeClientException then
      Line.text (ErrCodeClientException ++ " " ++ text)
    else if code = ErrCodeInvalidParameterException then
      Line.text (ErrCodeInvalidParameterException ++ " " ++ text)
    else if code = ErrCodeClusterNotFoundException then
      Line.text (ErrCodeClusterNotFoundException ++ " " ++ text)
    else if code = ErrCodeUnsupportedFeatureException then
      Line.text (ErrCodeUnsupportedFeatureException ++ " " ++ text)
    else if code = ErrCodePlatformUnknownException then
      Line.text (ErrCodePlatformUnknownException ++ " " ++ text)
    else if code = ErrCodePlatformTaskDefinitionIncompatibilityException then
      Line.text (ErrCodePlatformTaskDefinitionIncompatibilityException ++ " " ++ text)
    else if code = ErrCodeAccessDeniedException then
      Line.text (ErrCodeAccessDeniedException ++ " " ++ text)
    else if code = ErrCodeBlockedException then
      Line.text (ErrCodeBlockedException ++ " " ++ text)
    else
      Line.text text
  | .other text => Line.text text

/-- `parseDescribeTaskErr`: the line it prints. -/
def parseDescribeTaskErr (err : GoError) : Line :=
  match err with
  | .aws code text =>
    if code = ErrCodeServerException then
      Line.text (ErrCodeServerException ++ " " ++ text)
    else if code = ErrCodeClientException then
      Line.text (ErrCodeClientException ++ " " ++ text)
    else if code = ErrCodeInvalidParameterException then
      Line.text (ErrCodeInvalidParameterException ++ " " ++ text)
    else if code = ErrCodeClusterNotFoundException then
      Line.text (ErrCodeClusterNotFoundException ++ " " ++ text)
    else
      Line.text text
  | .other text => Line.text text

/-- `checkStatus`: the lines printed, and `none` when the function returns to its
caller or `some h` when it ends the process.  The first task and its first
container are read before the status is looked at, as in the source. -/
def checkStatus (t : DescribeTasksOutput) : List Line × Option Halt :=
  match t.Tasks with
  | [] => ([], some Halt.runtimePanic)
  | task :: _ =>
    match task.Containers with
    | [] => ([], some Halt.runtimePanic)
    | con :: _ =>
      match task.LastStatus with
      | none => ([], some Halt.runtimePanic)
      | some lastStatus =>
        if lastStatus ≠ "STOPPED" then ([], none)
        else
          match con.ExitCode with
          | none => ([Line.container con], some (Halt.osExit 1))
          | some exitCode =>
            if exitCode = 0 then
              ([Line.status lastStatus, Line.text "Task successfully finished."],
                some (Halt.osExit exitCode))
            else
              ([Line.container con], some (Halt.osExit exitCode))

/-- The body of the task status check loop (lines 75 to 86) on the response of
its `DescribeTasks` call: the lines printed, and `none` when control goes back to
the loop condition or `some h` when the body ends the process. -/
def loopBody (opts : Options) (response : Except GoError DescribeTasksOutput) :
    List Line × Option Halt :=
  match response with
  | .error err => ([parseDescribeTaskErr err], some (Halt.osExit 1))
  | .ok describeResult =>
    let checked : List Line × Option Halt :=
      if describeResult.Failures.length > 0 then
        ([Line.text ("Failed to get TaskDefinition: %s. Retrying...\n " ++ opts.TaskDef)],
          none)
      else checkStatus describeResult
    match checked.2 with
    | some h => (checked.1, some h)
    | none =>
      match describeResult.Tasks with
      | [] => (checked.1, some Halt.runtimePanic)
      | task :: _ =>
        match task.LastStatus with
        | none => (checked.1, some Halt.runtimePanic)
        | some lastStatus => (checked.1 ++ [Line.status lastStatus], none)

/-- The task status check loop of `main` (lines 74 to 87), entered with `i`
iterations done, the calls made and the lines printed so far. -/
def pollLoop (env : Env) (opts : Options) (taskArn : String) (endAt : Int) :
    Nat → Nat → List Call → List Line → Option Result
  | 0, _, _, _ => none
  | fuel + 1, i, calls, out =>
    if endAt > env.now i then
      let calls := calls ++ [Call.describeTasks opts.Cluster [taskArn]]
      match loopBody opts (env.describeTasks i) with
      | (printed, some h) => some ⟨calls, out ++ printed, h⟩
      | (printed, none) => pollLoop env opts taskArn endAt fuel (i + 1) calls (out ++ printed)
    else
      some ⟨calls, out ++ [Line.text "Timeout. Please check logs or extend timeout value."],
        Halt.osExit 1⟩

/-- `main`, with `fuel` evaluations of the loop condition allowed. -/
def main (env : Env) (fuel : Nat) : Option Result :=
  match env.args with
  | .error err => some ⟨[], [Line.text err], Halt.osExit 1⟩
  | .ok opts =>
    match validate opts with
    | (out, some err) => some ⟨[], out ++ [Line.text err], Halt.osExit 1⟩
    | (out, none) =>
      let fmtCommand := formatCommand opts.Command
      let calls := [Call.runTask opts.Cluster opts.TaskDef opts.Name fmtCommand]
      match env.runTask with
      | .error err => some ⟨calls, out ++ [parseRunTaskErr err], Halt.osExit 1⟩
      | .ok runResult =>
        match runResult.Tasks with
        | [] => some ⟨calls, out, Halt.runtimePanic⟩
        | task :: _ =>
          match task.TaskArn with
          | none => some ⟨calls, out, Halt.runtimePanic⟩
          | some taskArn =>
            let startAt := env.startAt
            let endAt := startAt + timeoutDuration opts
            pollLoop env opts taskArn endAt fuel 0 calls out

/-- The number of `DescribeTasks` calls in a call log. -/
def describeCount (calls : List Call) : Nat :=
  (calls.filter fun c => match c with
    | .describeTasks _ _ => true
    | .runTask _ _ _ _ => false).length

/-! ## Concrete environments -/

/-- The options of the end-to-end scenarios. -/
def scenarioOpts : Options := ⟨"c1", "td1", "app", "run job", 10⟩

/-- A running task with one container. -/
def runningTask : Task := ⟨some "task-123", some "RUNNING", [⟨some "app", some "RUNNING", none, none⟩]⟩

/-- A stopped task whose container reports the given exit code. -/
def stoppedTask (exitCode : Option Int) : Task :=
  ⟨some "task-123", some "STOPPED", [⟨some "app", some "STOPPED", none, exitCode⟩]⟩

/-- The backend accepts the submission; the first describe call reports
`RUNNING`, every later one `STOPPED` with the given exit code; the loop condition
reads the clock every five seconds. -/
def scenarioEnv (exitCode : Option Int) : Env where
  args := .ok scenarioOpts
  runTask := .ok ⟨[], [runningTask]⟩
  describeTasks := fun k => if k = 0 then .ok ⟨[], [runningTask]⟩ else .ok ⟨[], [stoppedTask exitCode]⟩
  startAt := 0
  now := fun k => (k : Int) * 5 * Second

/-- Every describe call reports the task `RUNNING`; the loop condition reads the
clock every five seconds. -/
def alwaysRunningEnv (timeout : Int) : Env where
  args := .ok ⟨"c1", "td1", "app", "run job", timeout⟩
  runTask := .ok ⟨[], [runningTask]⟩
  describeTasks := fun _ => .ok ⟨[], [runningTask]⟩
  startAt := 0
  now := fun k => (k : Int) * 5 * Second

/-- A describe response for a task that has no container entry yet. -/
def provisioningDescribe : DescribeTasksOutput :=
  ⟨[], [⟨some "task-123", some "PROVISIONING", []⟩]⟩

/-- A describe response that reports the handle as a failure and no task. -/
def missingDescribe : DescribeTasksOutput :=
  ⟨[⟨some "task-123", some "MISSING"⟩], []⟩

/-- The first describe call answers with `missingDescribe`. -/
def missingEnv : Env where
  args := .ok scenarioOpts
  runTask := .ok ⟨[], [runningTask]⟩
  describeTasks := fun k => if k = 0 then .ok missingDescribe else .ok ⟨[], [stoppedTask (some 0)]⟩
  startAt := 0
  now := fun k => (k : Int) * 5 * Second

/-- The backend answers the submission without an error, with no task and a
placement failure. -/
def placementRejectedEnv : Env where
  args := .ok scenarioOpts
  runTask := .ok ⟨[⟨none, some "RESOURCE:MEMORY"⟩], []⟩
  describeTasks := fun _ => .ok ⟨[], [stoppedTask (some 0)]⟩
  startAt := 0
  now := fun k => (k : Int) * 5 * Second

/-- The submission, or else the second describe call, returns the given error. -/
def failingEnv (submit : Option GoError) (describe : GoError) : Env where
  args := .ok scenarioOpts
  runTask := match submit with
    | some err => .error err
    | none => .ok ⟨[], [runningTask]⟩
  describeTasks := fun k => if k = 1 then .error describe else .ok ⟨[], [runningTask]⟩
  startAt := 0
  now := fun k => (k : Int) * Second

/-! ## Helper lemmas: the polling loop -/

theorem describeCount_append (xs ys : List Call) :
    describeCount (xs ++ ys) = describeCount xs + describeCount ys := by
  simp [describeCount]

theorem describeCount_replicate (n : Nat) (cluster : String) (tasks : List String) :
    describeCount (List.replicate n (Call.describeTasks cluster tasks)) = n := by
  induction n with
  | zero => rfl
  | succ n ih =>
    rw [List.replicate_succ]
    simp only [describeCount, List.filter_cons, List.length_cons] at ih ⊢
    simp

/-- A run of the loop that has finished took some number `n` of full iterations
whose body went back to the loop condition, and then either the condition failed
(timeout) or the body of iteration `i + n` ended the process. -/
theorem pollLoop_finished (env : Env) (opts : Options) (taskArn : String) (endAt : Int) :
    ∀ (fuel i : Nat) (calls : List Call) (out : List Line) (r : Result),
      pollLoop env opts taskArn endAt fuel i calls out = some r →
      ∃ n, n < fuel ∧
        (∀ j, j < n → endAt > env.now (i + j) ∧
          (loopBody opts (env.describeTasks (i + j))).2 = none) ∧
        ((¬ endAt > env.now (i + n) ∧ r.halt = Halt.osExit 1 ∧
            r.out.getLast? =
              some (Line.text "Timeout. Please check logs or extend timeout value.") ∧
            r.calls = calls ++
              List.replicate n (Call.describeTasks opts.Cluster [taskArn])) ∨
          (endAt > env.now (i + n) ∧
            (loopBody opts (env.describeTasks (i + n))).2 = some r.halt ∧
            r.calls = calls ++
              List.replicate (n + 1) (Call.describeTasks opts.Cluster [taskArn]))) := by
  intro fuel
  induction fuel with
  | zero => intro i calls out r h; simp [pollLoop] at h
  | succ fuel ih =>
    intro i calls out r h
    rw [pollLoop] at h
    by_cases hc : endAt > env.now i
    · rw [if_pos hc] at h
      rcases hb : loopBody opts (env.describeTasks i) with ⟨printed, _ | halt⟩
      · rw [hb] at h
        simp only at h
        obtain ⟨n, hn, hpre, hfin⟩ := ih (i + 1) _ _ r h
        refine ⟨n + 1, by omega, ?_, ?_⟩
        · intro j hj
          cases j with
          | zero => simpa [hb] using hc
          | succ j =>
            have := hpre j (by omega)
            simpa [Nat.add_assoc, Nat.add_comm 1 j] using this
        · have e : i + (n + 1) = i + 1 + n := by omega
          rw [e]
          rcases hfin with ⟨h1, h2, h3, h4⟩ | ⟨h1, h2, h4⟩
          · refine Or.inl ⟨h1, h2, h3, ?_⟩
            rw [h4, List.append_assoc, List.replicate_succ]; rfl
          · refine Or.inr ⟨h1, h2, ?_⟩
            rw [h4, List.append_assoc, List.replicate_succ, List.replicate_succ]; rfl
      · rw [hb] at h
        simp only [Option.some.injEq] at h
        subst h
        refine ⟨0, by omega, by intro j hj; omega, Or.inr ⟨by simpa using hc, ?_, by simp⟩⟩
        simp [hb]
    · rw [if_neg hc] at h
      simp only [Option.some.injEq] at h
      subst h
      exact ⟨0, by omega, by intro j hj; omega, Or.inl ⟨by simpa using hc, rfl, by simp, by simp⟩⟩

/-- More fuel does not change the result of a finished run of the loop. -/
theorem pollLoop_fuel_mono (env : Env) (opts : Options) (taskArn : String) (endAt : Int) :
    ∀ (fuel i : Nat) (calls : List Call) (out : List Line) (r : Result),
      pollLoop env opts taskArn endAt fuel i calls out = some r →
      ∀ fuel2, fuel ≤ fuel2 → pollLoop env opts taskArn endAt fuel2 i calls out = some r := by
  intro fuel
  induction fuel with
  | zero => intro i calls out r h; simp [pollLoop] at h
  | succ fuel ih =>
    intro i calls out r h fuel2 hle
    obtain ⟨f, rfl⟩ : ∃ f, fuel2 = f + 1 := ⟨fuel2 - 1, by omega⟩
    rw [pollLoop] at h ⊢
    by_cases hc : endAt > env.now i
    · rw [if_pos hc] at h ⊢
      rcases hb : loopBody opts (env.describeTasks i) with ⟨printed, _ | halt⟩
      · rw [hb] at h
        simp only at h ⊢
        exact ih _ _ _ r h f (by omega)
      · rw [hb] at h
        simpa using h
    · rw [if_neg hc] at h ⊢
      exact h

/-- The loop finishes within `n + 1` evaluations of its condition when at index
`i + n` the condition fails or the body ends the process. -/
theorem pollLoop_terminates (env : Env) (opts : Options) (taskArn : String) (endAt : Int) :
    ∀ (n i : Nat) (calls : List Call) (out : List Line),
      (¬ endAt > env.now (i + n) ∨ (loopBody opts (env.describeTasks (i + n))).2 ≠ none) →
      ∃ r, pollLoop env opts taskArn endAt (n + 1) i calls out = some r := by
  intro n
  induction n with
  | zero =>
    intro i calls out h
    rw [pollLoop]
    by_cases hc : endAt > env.now i
    · rw [if_pos hc]
      rcases hb : loopBody opts (env.describeTasks i) with ⟨printed, _ | halt⟩
      · simp [hc, hb] at h
      · exact ⟨_, rfl⟩
    · rw [if_neg hc]; exact ⟨_, rfl⟩
  | succ n ih =>
    intro i calls out h
    rw [pollLoop]
    by_cases hc : endAt > env.now i
    · rw [if_pos hc]
      rcases hb : loopBody opts (env.describeTasks i) with ⟨printed, _ | halt⟩
      · simp only
        apply ih
        have e : i + 1 + n = i + (n + 1) := by omega
        rw [e]; exact h
      · exact ⟨_, rfl⟩
    · rw [if_neg hc]; exact ⟨_, rfl⟩

/-- The loop runs `n` full iterations when, for each of them, the condition holds
and the body goes back to the condition. -/
theorem pollLoop_iterates (env : Env) (opts : Options) (taskArn : String) (endAt : Int) :
    ∀ (n fuel i : Nat) (calls : List Call) (out : List Line),
      (∀ j, j < n → endAt > env.now (i + j) ∧
        (loopBody opts (env.describeTasks (i + j))).2 = none) →
      ∃ out2, pollLoop env opts taskArn endAt (n + fuel) i calls out =
        pollLoop env opts taskArn endAt fuel (i + n)
          (calls ++ List.replicate n (Call.describeTasks opts.Cluster [taskArn])) out2 := by
  intro n
  induction n with
  | zero => intro fuel i calls out _; exact ⟨out, by simp⟩
  | succ n ih =>
    intro fuel i calls out h
    have h0 := h 0 (by omega)
    have e : n + 1 + fuel = (n + fuel) + 1 := by omega
    rw [e, pollLoop, if_pos (by simpa using h0.1)]
    rcases hb : loopBody opts (env.describeTasks i) with ⟨printed, _ | halt⟩
    · simp only
      obtain ⟨out2, h2⟩ := ih fuel (i + 1) (calls ++ [Call.describeTasks opts.Cluster [taskArn]])
        (out ++ printed) (by
          intro j hj
          have := h (j + 1) (by omega)
          simpa [Nat.add_assoc, Nat.add_comm 1 j] using this)
      refine ⟨out2, ?_⟩
      rw [h2, List.append_assoc, List.replicate_succ]
      have e2 : i + 1 + n = i + (n + 1) := by omega
      rw [e2]; rfl
    · have := h0.2
      simp [hb] at this

/-! ## Helper lemmas: splitting and joining -/

theorem foldl_append_singleton {α : Type} (l init : List α) :
    l.foldl (fun acc c => acc ++ [c]) init = init ++ l := by
  induction l generalizing init with
  | nil => simp
  | cons a l ih => simp [ih]

theorem formatCommand_eq_splitSpace (cmd : String) : formatCommand cmd = splitSpace cmd := by
  simp [formatCommand, foldl_append_singleton]

theorem splitOnP_length {α : Type} (p : α → Bool) (l : List α) :
    (l.splitOnP p).length = (l.filter p).length + 1 := by
  induction l with
  | nil => simp
  | cons a l ih =>
    rw [List.splitOnP_cons]
    by_cases h : p a
    · simp [h, ih]
    · have hne := List.splitOnP_ne_nil p l
      cases hs : l.splitOnP p with
      | nil => exact absurd hs hne
      | cons hd tl =>
        rw [hs] at ih
        simp only [List.length_cons] at ih
        simp [h, List.modifyHead]
        omega

theorem splitOnP_no_sep {α : Type} (p : α → Bool) (l : List α) :
    ∀ t ∈ l.splitOnP p, ∀ x ∈ t, ¬ p x = true := by
  induction l with
  | nil => simp
  | cons a l ih =>
    rw [List.splitOnP_cons]
    by_cases h : p a
    · simp only [h, if_true]
      intro t ht
      rcases List.mem_cons.mp ht with rfl | ht
      · simp
      · exact ih t ht
    · have hne := List.splitOnP_ne_nil p l
      cases hs : l.splitOnP p with
      | nil => exact absurd hs hne
      | cons hd tl =>
        rw [hs] at ih
        simp only [h, List.modifyHead]
        intro t ht
        simp only [Bool.false_eq_true, if_false, List.mem_cons] at ht
        rcases ht with rfl | ht
        · intro x hx
          rcases List.mem_cons.mp hx with rfl | hx
          · exact h
          · exact ih hd (List.mem_cons_self _ _) x hx
        · exact ih t (List.mem_cons_of_mem _ ht)

theorem intercalate_go_data (sep : String) (l : List String) (acc : String) :
    (String.intercalate.go acc sep l).data =
      acc.data ++ (l.map fun a => sep.data ++ a.data).flatten := by
  induction l generalizing acc with
  | nil => simp [String.intercalate.go]
  | cons a l ih => simp [String.intercalate.go, ih, String.data_append]

theorem list_intercalate_cons {α : Type} (sep : List α) (x : List α) (xs : List (List α)) :
    sep.intercalate (x :: xs) = x ++ (xs.map fun a => sep ++ a).flatten := by
  induction xs generalizing x with
  | nil => simp [List.intercalate]
  | cons y ys ih =>
    have := ih y
    simp only [List.intercalate] at this ⊢
    simp [List.intersperse, this]

/-- Joining strings with a separator is joining their character lists. -/
theorem string_intercalate_data (sep : String) (l : List String) :
    (String.intercalate sep l).data = sep.data.intercalate (l.map String.data) := by
  cases l with
  | nil => simp [String.intercalate, List.intercalate]
  | cons x xs =>
    rw [List.map_cons, list_intercalate_cons]
    simp [String.intercalate, intercalate_go_data, List.map_map, Function.comp_def]

theorem splitSpace_data (s : String) :
    (splitSpace s).map String.data = s.data.splitOn ' ' := by
  simp [splitSpace, List.map_map, Function.comp_def]

/-! ## Helper lemmas: the loop body and `main` -/

theorem wrapInt64_of_fits (x : Int) (hlo : -2 ^ 63 ≤ x) (hhi : x < 2 ^ 63) :
    wrapInt64 x = x := by
  unfold wrapInt64
  omega

/-- The body goes back to the loop condition on a response without failures whose
first task has a container and a status other than `STOPPED`. -/
theorem loopBody_running (opts : Options) (d : DescribeTasksOutput) (task : Task)
    (tasks : List Task) (con : Container) (cons : List Container) (status : String)
    (hF : d.Failures = []) (hT : d.Tasks = task :: tasks) (hC : task.Containers = con :: cons)
    (hS : task.LastStatus = some status) (hne : status ≠ "STOPPED") :
    (loopBody opts (.ok d)).2 = none := by
  simp [loopBody, checkStatus, hF, hT, hC, hS, hne]

/-- The body ends the process with `os.Exit(0)` on a response without failures
whose first task is `STOPPED` and whose first container has exit code 0. -/
theorem loopBody_verified (opts : Options) (d : DescribeTasksOutput) (task : Task)
    (tasks : List Task) (con : Container) (cons : List Container)
    (hF : d.Failures = []) (hT : d.Tasks = task :: tasks) (hC : task.Containers = con :: cons)
    (hS : task.LastStatus = some "STOPPED") (hE : con.ExitCode = some 0) :
    (loopBody opts (.ok d)).2 = some (Halt.osExit 0) := by
  simp [loopBody, checkStatus, hF, hT, hC, hS, hE]

theorem checkStatus_osExit_zero (d : DescribeTasksOutput) (h : Halt)
    (hh : (checkStatus d).2 = some h) (hz : h = Halt.osExit 0) :
    ∃ task tasks con cons, d.Tasks = task :: tasks ∧
      task.LastStatus = some "STOPPED" ∧ task.Containers = con :: cons ∧
      con.ExitCode = some 0 := by
  unfold checkStatus at hh
  rcases hT : d.Tasks with _ | ⟨task, tasks⟩
  · simp [hT] at hh; subst hh; simp at hz
  · rcases hC : task.Containers with _ | ⟨con, cons⟩
    · simp [hT, hC] at hh; subst hh; simp at hz
    · rcases hS : task.LastStatus with _ | status
      · simp [hT, hC, hS] at hh; subst hh; simp at hz
      · by_cases hst : status = "STOPPED"
        · subst hst
          rcases hE : con.ExitCode with _ | n
          · simp [hT, hC, hS, hE] at hh; subst hh; simp at hz
          · by_cases hn : n = 0
            · subst hn
              exact ⟨task, tasks, con, cons, rfl, hS, hC, hE⟩
            · simp [hT, hC, hS, hE, hn] at hh; subst hh
              simp at hz; exact absurd hz hn
        · simp [hT, hC, hS, hst] at hh

/-- The body ends the process with `os.Exit(0)` only on a verified success. -/
theorem loopBody_osExit_zero (opts : Options) (response : Except GoError DescribeTasksOutput)
    (h : Halt) (hh : (loopBody opts response).2 = some h) (hz : h = Halt.osExit 0) :
    ∃ d task tasks con cons, response = .ok d ∧ d.Failures = [] ∧ d.Tasks = task :: tasks ∧
      task.LastStatus = some "STOPPED" ∧ task.Containers = con :: cons ∧
      con.ExitCode = some 0 := by
  cases response with
  | error err =>
    simp [loopBody] at hh; subst hh; simp at hz
  | ok d =>
    unfold loopBody at hh
    by_cases hF : d.Failures.length > 0
    · simp only [hF, if_true] at hh
      rcases hT : d.Tasks with _ | ⟨task, tasks⟩
      · simp [hT] at hh; subst hh; simp at hz
      · rcases hS : task.LastStatus with _ | status
        · simp [hT, hS] at hh; subst hh; simp at hz
        · simp [hT, hS] at hh
    · simp only [hF, if_false] at hh
      have hF2 : d.Failures = [] := by
        cases hd : d.Failures with
        | nil => rfl
        | cons a l => rw [hd] at hF; simp at hF
      rcases hcs : (checkStatus d).2 with _ | h2
      · rw [hcs] at hh
        rcases hT : d.Tasks with _ | ⟨task, tasks⟩
        · simp [hT] at hh; subst hh; simp at hz
        · rcases hS : task.LastStatus with _ | status
          · simp [hT, hS] at hh; subst hh; simp at hz
          · simp [hT, hS] at hh
      · rw [hcs] at hh
        simp at hh; subst hh
        obtain ⟨task, tasks, con, cons, h1, h2, h3, h4⟩ := checkStatus_osExit_zero d h2 hcs hz
        exact ⟨d, task, tasks, con, cons, rfl, hF2, h1, h2, h3, h4⟩

/-- A run of `main` either ends before the loop, with no describe call and a
halt other than `os.Exit(0)`, whatever the fuel, or it is a run of the loop. -/
theorem main_cases (env : Env) :
    (∃ r, describeCount r.calls = 0 ∧ r.halt ≠ Halt.osExit 0 ∧ ∀ fuel, main env fuel = some r) ∨
    (∃ opts taskArn out, env.args = .ok opts ∧ ∀ fuel, main env fuel =
      pollLoop env opts taskArn (env.startAt + timeoutDuration opts) fuel 0
        [Call.runTask opts.Cluster opts.TaskDef opts.Name (formatCommand opts.Command)] out) := by
  rcases hargs : env.args with err | opts
  · exact Or.inl ⟨⟨[], [Line.text err], Halt.osExit 1⟩, rfl, by simp,
      fun fuel => by simp [main, hargs]⟩
  · rcases hval : validate opts with ⟨out, _ | err⟩
    · rcases hrun : env.runTask with err | runResult
      · exact Or.inl ⟨⟨[Call.runTask opts.Cluster opts.TaskDef opts.Name (formatCommand opts.Command)], out ++ [parseRunTaskErr err], Halt.osExit 1⟩, rfl,
          by simp, fun fuel => by simp [main, hargs, hval, hrun]⟩
      · rcases hT : runResult.Tasks with _ | ⟨task, tasks⟩
        · exact Or.inl ⟨⟨[Call.runTask opts.Cluster opts.TaskDef opts.Name (formatCommand opts.Command)], out, Halt.runtimePanic⟩, rfl, by simp,
            fun fuel => by simp [main, hargs, hval, hrun, hT]⟩
        · rcases hA : task.TaskArn with _ | taskArn
          · exact Or.inl ⟨⟨[Call.runTask opts.Cluster opts.TaskDef opts.Name (formatCommand opts.Command)], out, Halt.runtimePanic⟩, rfl, by simp,
              fun fuel => by simp [main, hargs, hval, hrun, hT, hA]⟩
          · exact Or.inr ⟨opts, taskArn, out, rfl,
              fun fuel => by simp [main, hargs, hval, hrun, hT, hA]⟩
    · exact Or.inl ⟨⟨[], out ++ [Line.text err], Halt.osExit 1⟩, rfl, by simp,
        fun fuel => by simp [main, hargs, hval]⟩

/-- More fuel does not change the result of a finished run. -/
theorem main_fuel_mono (env : Env) (fuel fuel2 : Nat) (r : Result)
    (h : main env fuel = some r) (hle : fuel ≤ fuel2) : main env fuel2 = some r := by
  rcases main_cases env with ⟨r0, _, _, h0⟩ | ⟨opts, taskArn, out, _, h0⟩
  · rw [h0] at h ⊢; exact h
  · rw [h0] at h ⊢
    exact pollLoop_fuel_mono env opts taskArn _ fuel 0 _ _ r h fuel2 hle

/-! ## The claims -/

/-- C1. Exit-code propagation: when the first task of a describe result is
`STOPPED` and its first container carries the exit code `n` with `n ≠ 0`,
`checkStatus` ends the process with `os.Exit(n)`: the value handed to `os.Exit` is
`n` itself, not 1 and not a remapped value.  For `n` from 1 to 255 the exit status
the parent process observes is `n` as well. -/
theorem checkStatus_propagates_exit_code (t : DescribeTasksOutput) (task : Task)
    (tasks : List Task) (con : Container) (cons : List Container) (n : Int)
    (hTasks : t.Tasks = task :: tasks) (hCons : task.Containers = con :: cons)
    (hStatus : task.LastStatus = some "STOPPED") (hExit : con.ExitCode = some n)
    (hn : n ≠ 0) :
    (checkStatus t).2 = some (Halt.osExit n) ∧
      (0 ≤ n → n < 256 → ∀ h, (checkStatus t).2 = some h → h.status = n) := by
  have hcs : (checkStatus t).2 = some (Halt.osExit n) := by
    simp [checkStatus, hTasks, hCons, hStatus, hExit, hn]
  refine ⟨hcs, ?_⟩
  intro h0 h256 h hh
  rw [hcs] at hh
  simp only [Option.some.injEq] at hh
  subst hh
  simp only [Halt.status]
  omega

/-- C1, at exit code 137: `os.Exit(137)`, and the process exit status is 137. -/
theorem checkStatus_propagates_exit_code_witness :
    (checkStatus ⟨[], [stoppedTask (some 137)]⟩).2 = some (Halt.osExit 137) ∧
      (Halt.osExit 137).status = 137 :=
  have h := checkStatus_propagates_exit_code ⟨[], [stoppedTask (some 137)]⟩
    (stoppedTask (some 137)) [] ⟨some "app", some "STOPPED", none, some 137⟩ [] 137
    rfl rfl rfl rfl (by decide)
  ⟨h.1, h.2 (by decide) (by decide) _ h.1⟩

/-- C3. Missing exit code: when the first task of a describe result is `STOPPED`
and its first container has no exit code, `checkStatus` ends the process with
`os.Exit(1)`, whatever the other fields of the container are. -/
theorem checkStatus_missing_exit_code (t : DescribeTasksOutput) (task : Task)
    (tasks : List Task) (con : Container) (cons : List Container)
    (hTasks : t.Tasks = task :: tasks) (hCons : task.Containers = con :: cons)
    (hStatus : task.LastStatus = some "STOPPED") (hExit : con.ExitCode = none) :
    (checkStatus t).2 = some (Halt.osExit 1) ∧ (Halt.osExit 1).status = 1 := by
  refine ⟨?_, by decide⟩
  simp [checkStatus, hTasks, hCons, hStatus, hExit]

/-- C3, at a stopped task whose container was killed before producing a code. -/
theorem checkStatus_missing_exit_code_witness :
    (checkStatus ⟨[], [stoppedTask none]⟩).2 = some (Halt.osExit 1) ∧
      (Halt.osExit 1).status = 1 :=
  checkStatus_missing_exit_code ⟨[], [stoppedTask none]⟩ (stoppedTask none) []
    ⟨some "app", some "STOPPED", none, none⟩ [] rfl rfl rfl rfl

/-- C6. Command tokenization: `formatCommand s` has one token more than `s` has
spaces, no token contains a space, joining the tokens with one space gives back
`s`, and it is the only non-empty list of space-free tokens that does; a string
without a space is a single token, so tab and newline do not separate. -/
theorem formatCommand_tokenization (s : String) :
    (formatCommand s).length = s.toList.count ' ' + 1 ∧
    (∀ t ∈ formatCommand s, ' ' ∉ t.toList) ∧
    String.intercalate " " (formatCommand s) = s ∧
    (∀ ts : List String, ts ≠ [] → (∀ t ∈ ts, ' ' ∉ t.toList) →
      String.intercalate " " ts = s → formatCommand s = ts) ∧
    (' ' ∉ s.toList → formatCommand s = [s]) ∧
    formatCommand "echo  hi" = ["echo", "", "hi"] ∧
    formatCommand "a\tb\nc" = ["a\tb\nc"] := by
  have hjoin : String.intercalate " " (formatCommand s) = s := by
    apply String.ext
    rw [string_intercalate_data, formatCommand_eq_splitSpace, splitSpace_data]
    exact List.intercalate_splitOn _ ' '
  have huniq : ∀ ts : List String, ts ≠ [] → (∀ t ∈ ts, ' ' ∉ t.toList) →
      String.intercalate " " ts = s → formatCommand s = ts := by
    intro ts hne hts hs
    have hd : s.data = [' '].intercalate (ts.map String.data) := by
      rw [← hs, string_intercalate_data]
    have hsplit : s.data.splitOn ' ' = ts.map String.data := by
      rw [hd]
      apply List.splitOn_intercalate
      · intro l hl
        obtain ⟨t, ht, rfl⟩ := List.mem_map.mp hl
        exact hts t ht
      · simpa using hne
    rw [formatCommand_eq_splitSpace, splitSpace, String.toList, hsplit]
    simp [List.map_map, Function.comp_def]
  refine ⟨?_, ?_, hjoin, huniq, ?_, by decide, by decide⟩
  · rw [formatCommand_eq_splitSpace, splitSpace, List.length_map, List.splitOn,
      splitOnP_length, List.count, List.countP_eq_length_filter]
  · intro t ht hmem
    rw [formatCommand_eq_splitSpace, splitSpace] at ht
    obtain ⟨l, hl, rfl⟩ := List.mem_map.mp ht
    exact splitOnP_no_sep _ _ l hl ' ' hmem (by simp)
  · intro hs
    apply huniq [s] (by simp) (by simpa using hs)
    simp [String.intercalate, String.intercalate.go]

/-- C6, on a command with a tab and a newline and no space. -/
theorem formatCommand_tokenization_witness :
    ' ' ∉ "a\tb\nc".toList ∧ formatCommand "a\tb\nc" = ["a\tb\nc"] :=
  ⟨by decide, (formatCommand_tokenization "a\tb\nc").2.2.2.2.1 (by decide)⟩

/-- C7. Configuration validation: `validate` returns an error exactly when one of
`Cluster`, `TaskDef`, `Name`, `Command` is empty; the `Timeout` value plays no
part; and a run whose options are rejected exits with code 1 without any backend
call. -/
theorem validate_rejects_iff_required_option_empty (opts : Options) :
    ((validate opts).2 ≠ none ↔
      (opts.Cluster = "" ∨ opts.TaskDef = "" ∨ opts.Name = "" ∨ opts.Command = "")) ∧
    (∀ timeout : Int, (validate { opts with Timeout := timeout }).2 = (validate opts).2) ∧
    (∀ (env : Env) (fuel : Nat), env.args = .ok opts → (validate opts).2 ≠ none →
      ∃ out, main env fuel = some ⟨[], out, Halt.osExit 1⟩) := by
  refine ⟨?_, ?_, ?_⟩
  · unfold validate
    by_cases h1 : opts.Cluster = "" <;> by_cases h2 : opts.TaskDef = "" <;>
      by_cases h3 : opts.Name = "" <;> by_cases h4 : opts.Command = "" <;>
      simp [h1, h2, h3, h4]
  · intro timeout
    unfold validate
    by_cases h1 : opts.Cluster = "" <;> by_cases h2 : opts.TaskDef = "" <;>
      by_cases h3 : opts.Name = "" <;> by_cases h4 : opts.Command = "" <;>
      simp [h1, h2, h3, h4]
  · intro env fuel hargs hv
    rcases hval : validate opts with ⟨out, _ | err⟩
    · rw [hval] at hv; exact absurd rfl hv
    · exact ⟨out ++ [Line.text err], by simp [main, hargs, hval]⟩

/-- C7, on options with an empty task definition and a negative timeout. -/
theorem validate_rejects_iff_required_option_empty_witness :
    (validate ⟨"c1", "", "app", "run job", -5⟩).2 ≠ none ∧
    ∃ out, main ⟨.ok ⟨"c1", "", "app", "run job", -5⟩, .ok ⟨[], [runningTask]⟩,
      fun _ => .ok ⟨[], [runningTask]⟩, 0, fun _ => 0⟩ 3 = some ⟨[], out, Halt.osExit 1⟩ :=
  ⟨by decide,
    (validate_rejects_iff_required_option_empty ⟨"c1", "", "app", "run job", -5⟩).2.2
      ⟨.ok ⟨"c1", "", "app", "run job", -5⟩, .ok ⟨[], [runningTask]⟩,
        fun _ => .ok ⟨[], [runningTask]⟩, 0, fun _ => 0⟩ 3 rfl (by decide)⟩

/-- C9 at its failing input: a describe result whose first task is `PROVISIONING`
and has no container entry makes `checkStatus` panic on `task.Containers[0]`,
before the status is compared with `STOPPED`. -/
theorem checkStatus_panics_on_empty_containers :
    (∃ task tasks status, provisioningDescribe.Tasks = task :: tasks ∧
      task.LastStatus = some status ∧ status ≠ "STOPPED" ∧ task.Containers = []) ∧
    checkStatus provisioningDescribe = ([], some Halt.runtimePanic) :=
  ⟨⟨_, _, _, rfl, rfl, by decide, rfl⟩, rfl⟩

/-- A finished run of `main` ends with `os.Exit(0)` exactly when some describe
response handled by the loop had no failures, a first task in status `STOPPED`
and a first container with exit code 0.  The result does not depend on the fuel,
and a run whose clock reaches the deadline is a finished run. -/
theorem main_osExit_zero_iff_verified_success (env : Env) :
    (∀ (fuel : Nat) (r : Result), main env fuel = some r →
      (r.halt = Halt.osExit 0 ↔
        ∃ k d task tasks con cons, k < describeCount r.calls ∧
          env.describeTasks k = .ok d ∧ d.Failures = [] ∧ d.Tasks = task :: tasks ∧
          task.LastStatus = some "STOPPED" ∧ task.Containers = con :: cons ∧
          con.ExitCode = some 0)) ∧
    (∀ (fuel fuel2 : Nat) (r : Result), main env fuel = some r → fuel ≤ fuel2 →
      main env fuel2 = some r) ∧
    (∀ k : Nat,
      (∀ opts, env.args = .ok opts → env.startAt + timeoutDuration opts ≤ env.now k) →
      ∃ r, main env (k + 1) = some r) := by
  refine ⟨?_, fun fuel fuel2 r h hle => main_fuel_mono env fuel fuel2 r h hle, ?_⟩
  · intro fuel r hr
    rcases main_cases env with ⟨r0, hc0, hs0, h0⟩ | ⟨opts, taskArn, out, _, h0⟩
    · rw [h0] at hr
      simp only [Option.some.injEq] at hr
      subst hr
      constructor
      · intro hz; exact absurd hz hs0
      · rintro ⟨k, _, _, _, _, _, hk, _⟩
        omega
    · rw [h0] at hr
      obtain ⟨n, _, hpre, hfin⟩ := pollLoop_finished env opts taskArn _ fuel 0 _ _ r hr
      simp only [Nat.zero_add] at hpre hfin
      constructor
      · intro hz
        rcases hfin with ⟨_, hh, _, _⟩ | ⟨_, hb, hcalls⟩
        · rw [hh] at hz; simp at hz
        · obtain ⟨d, task, tasks, con, cons, h1, h2, h3, h4, h5, h6⟩ :=
            loopBody_osExit_zero opts _ _ hb hz
          refine ⟨n, d, task, tasks, con, cons, ?_, h1, h2, h3, h4, h5, h6⟩
          rw [hcalls, describeCount_append, describeCount_replicate]
          omega
      · rintro ⟨k, d, task, tasks, con, cons, hk, h1, h2, h3, h4, h5, h6⟩
        have hv := loopBody_verified opts d task tasks con cons h2 h3 h5 h4 h6
        have hcount : describeCount
            [Call.runTask opts.Cluster opts.TaskDef opts.Name (formatCommand opts.Command)] = 0 :=
          rfl
        by_cases hkn : k < n
        · have := (hpre k hkn).2
          rw [h1, hv] at this
          simp at this
        · rcases hfin with ⟨_, _, _, hcalls⟩ | ⟨_, hb, hcalls⟩
          · rw [hcalls, describeCount_append, describeCount_replicate, hcount] at hk
            omega
          · rw [hcalls, describeCount_append, describeCount_replicate, hcount] at hk
            have hkeq : k = n := by omega
            subst hkeq
            rw [h1, hv] at hb
            simp only [Option.some.injEq] at hb
            exact hb.symm
  · intro k hk
    rcases main_cases env with ⟨r0, _, _, h0⟩ | ⟨opts, taskArn, out, hargs, h0⟩
    · exact ⟨r0, h0 _⟩
    · rw [h0]
      apply pollLoop_terminates
      left
      have := hk opts hargs
      simp only [Nat.zero_add]
      omega

/-- C2 at its failing input: the second describe call reports the task `STOPPED`
with container exit code 256.  No describe response of the run has a container
exit code 0, `main` calls `os.Exit(256)`, and the exit status the parent process
observes is 0. -/
theorem exit_code_256_ends_with_status_zero :
    (∀ k, (scenarioEnv (some 256)).describeTasks k = .ok ⟨[], [runningTask]⟩ ∨
      (scenarioEnv (some 256)).describeTasks k = .ok ⟨[], [stoppedTask (some 256)]⟩) ∧
    (∀ fuel, main (scenarioEnv (some 256)) (fuel + 2) =
      some ⟨[Call.runTask "c1" "td1" "app" ["run", "job"],
          Call.describeTasks "c1" ["task-123"], Call.describeTasks "c1" ["task-123"]],
        [Line.text "Set timeout as 10 sec.", Line.status "RUNNING",
          Line.container ⟨some "app", some "STOPPED", none, some 256⟩],
        Halt.osExit 256⟩) ∧
    (Halt.osExit 256).status = 0 := by
  refine ⟨?_, ?_, by decide⟩
  · intro k
    by_cases hk : k = 0
    · left; simp [scenarioEnv, hk]
    · right; simp [scenarioEnv, hk]
  · intro fuel
    exact main_fuel_mono (scenarioEnv (some 256)) 2 (fuel + 2) _ (by decide) (by omega)

/-- C4 as stated fails: with a timeout of 10000000000 seconds the first clock
reading is strictly before start plus timeout seconds, yet the loop makes no
iteration and the run ends at once with the timeout outcome, because the
nanosecond count of the timeout wraps to a negative `time.Duration`. -/
theorem timeout_overflow_counterexample :
    (alwaysRunningEnv 10000000000).now 0 <
      (alwaysRunningEnv 10000000000).startAt + 10000000000 * Second ∧
    timeoutDuration ⟨"c1", "td1", "app", "run job", 10000000000⟩ = -8446744073709551616 ∧
    main (alwaysRunningEnv 10000000000) 1 =
      some ⟨[Call.runTask "c1" "td1" "app" ["run", "job"]],
        [Line.text "Set timeout as 10000000000 sec.",
          Line.text "Timeout. Please check logs or extend timeout value."],
        Halt.osExit 1⟩ := by
  refine ⟨by decide, by decide, by decide⟩

/-- C4, amended. When the nanosecond count of the timeout fits an `int64`, the
submission returns a task with a handle, and every describe call made answers
without failures with a first task that has a container and a status other than
`STOPPED`: the loop iterates exactly while the reading taken by its condition is
strictly before `startAt` plus `Timeout` seconds, and at the first reading `k` at
or after that deadline the run ends through the timeout branch with exit code 1,
after exactly `k` describe calls. -/
theorem timeout_when_never_stopped (env : Env) (opts : Options) (runResult : RunTaskOutput)
    (first : Task) (others : List Task) (taskArn : String) (k : Nat)
    (hargs : env.args = .ok opts) (hvalid : (validate opts).2 = none)
    (hrun : env.runTask = .ok runResult) (hfirst : runResult.Tasks = first :: others)
    (harn : first.TaskArn = some taskArn)
    (hlo : -2 ^ 63 ≤ opts.Timeout * Second) (hhi : opts.Timeout * Second < 2 ^ 63)
    (hbefore : ∀ j, j < k → env.now j < env.startAt + opts.Timeout * Second)
    (hafter : env.startAt + opts.Timeout * Second ≤ env.now k)
    (hdescribe : ∀ j, j < k → ∃ d task tasks con cons status,
      env.describeTasks j = .ok d ∧ d.Failures = [] ∧ d.Tasks = task :: tasks ∧
      task.Containers = con :: cons ∧ task.LastStatus = some status ∧ status ≠ "STOPPED") :
    ∃ r, (∀ fuel, k < fuel → main env fuel = some r) ∧
      r.halt = Halt.osExit 1 ∧
      r.out.getLast? = some (Line.text "Timeout. Please check logs or extend timeout value.") ∧
      r.calls = Call.runTask opts.Cluster opts.TaskDef opts.Name (formatCommand opts.Command) ::
        List.replicate k (Call.describeTasks opts.Cluster [taskArn]) ∧
      describeCount r.calls = k := by
  rcases hval : validate opts with ⟨out, verr⟩
  rw [hval] at hvalid
  simp only at hvalid
  subst hvalid
  have hmain : ∀ fuel, main env fuel = pollLoop env opts taskArn
      (env.startAt + opts.Timeout * Second) fuel 0
      [Call.runTask opts.Cluster opts.TaskDef opts.Name (formatCommand opts.Command)] out := by
    intro fuel
    simp [main, hargs, hval, hrun, hfirst, harn, timeoutDuration, wrapInt64_of_fits _ hlo hhi]
  obtain ⟨out2, hiter⟩ := pollLoop_iterates env opts taskArn
    (env.startAt + opts.Timeout * Second) k 1 0
    [Call.runTask opts.Cluster opts.TaskDef opts.Name (formatCommand opts.Command)] out (by
      intro j hj
      obtain ⟨d, task, tasks, con, cons, status, h1, h2, h3, h4, h5, h6⟩ := hdescribe j hj
      refine ⟨?_, ?_⟩
      · have := hbefore j hj
        simp only [Nat.zero_add]; omega
      · simp only [Nat.zero_add]
        rw [h1]
        exact loopBody_running opts d task tasks con cons status h2 h3 h4 h5 h6)
  have hstop : ¬ (env.startAt + opts.Timeout * Second > env.now (0 + k)) := by
    simp only [Nat.zero_add]; omega
  have hend : pollLoop env opts taskArn (env.startAt + opts.Timeout * Second) 1 (0 + k)
      ([Call.runTask opts.Cluster opts.TaskDef opts.Name (formatCommand opts.Command)] ++
        List.replicate k (Call.describeTasks opts.Cluster [taskArn])) out2 =
      some ⟨[Call.runTask opts.Cluster opts.TaskDef opts.Name (formatCommand opts.Command)] ++
          List.replicate k (Call.describeTasks opts.Cluster [taskArn]),
        out2 ++ [Line.text "Timeout. Please check logs or extend timeout value."],
        Halt.osExit 1⟩ := by
    rw [pollLoop, if_neg hstop]
  rw [hend] at hiter
  refine ⟨⟨[Call.runTask opts.Cluster opts.TaskDef opts.Name (formatCommand opts.Command)] ++
      List.replicate k (Call.describeTasks opts.Cluster [taskArn]),
    out2 ++ [Line.text "Timeout. Please check logs or extend timeout value."],
    Halt.osExit 1⟩, ?_, rfl, by simp, rfl, ?_⟩
  · intro fuel hfuel
    apply main_fuel_mono env (k + 1) fuel _ _ (by omega)
    rw [hmain, hiter]
  · show describeCount (_ :: List.replicate k _) = k
    rw [← List.singleton_append, describeCount_append, describeCount_replicate]
    exact Nat.zero_add k

/-- C4, amended, on timeout 10 with describe always reporting `RUNNING`: the
readings at 0 s and 5 s are before the deadline, the reading at 10 s is not, and
the run ends with exit code 1 after two describe calls. -/
theorem timeout_when_never_stopped_witness :
    ∃ r, (∀ fuel, 2 < fuel → main (alwaysRunningEnv 10) fuel = some r) ∧
      r.halt = Halt.osExit 1 ∧
      r.out.getLast? = some (Line.text "Timeout. Please check logs or extend timeout value.") ∧
      r.calls = Call.runTask "c1" "td1" "app" (formatCommand "run job") ::
        List.replicate 2 (Call.describeTasks "c1" ["task-123"]) ∧
      describeCount r.calls = 2 :=
  timeout_when_never_stopped (alwaysRunningEnv 10) ⟨"c1", "td1", "app", "run job", 10⟩
    ⟨[], [runningTask]⟩ runningTask [] "task-123" 2 rfl (by decide) rfl rfl rfl
    (by decide) (by decide)
    (by intro j hj; interval_cases j <;> decide)
    (by decide)
    (by
      intro j _
      exact ⟨⟨[], [runningTask]⟩, runningTask, [], ⟨some "app", some "RUNNING", none, none⟩, [],
        "RUNNING", rfl, rfl, rfl, rfl, rfl, by decide⟩)

/-- C5 at its failing input: the first describe call succeeds with a non-empty
failures list and an empty task list; the iteration prints the retry line,
sleeps, and then panics on `describeResult.Tasks[0]` in the status line, so the
run ends there and the next deadline check is never reached. -/
theorem failures_response_with_no_task_panics :
    missingDescribe.Failures ≠ [] ∧ missingDescribe.Tasks = [] ∧
    (loopBody scenarioOpts (.ok missingDescribe)).2 = some Halt.runtimePanic ∧
    ∀ fuel, main missingEnv (fuel + 1) =
      some ⟨[Call.runTask "c1" "td1" "app" ["run", "job"], Call.describeTasks "c1" ["task-123"]],
        [Line.text "Set timeout as 10 sec.",
          Line.text "Failed to get TaskDefinition: %s. Retrying...\n td1"],
        Halt.runtimePanic⟩ := by
  refine ⟨by decide, rfl, by decide, ?_⟩
  intro fuel
  apply main_fuel_mono missingEnv 1 (fuel + 1) _ (by decide) (by omega)

/-- C8. API-level errors are fatal whatever their kind: when the submit call
returns an error, of any code or none, the run ends with exit code 1 and the
submit call is the only backend call; when the `k`-th describe call returns an
error, the run is finished within `k + 1` loop tests and, if that call was made,
it ends with exit code 1 and that call is the last backend call. -/
theorem api_errors_are_fatal (env : Env) (opts : Options)
    (hargs : env.args = .ok opts) (hvalid : (validate opts).2 = none) :
    (∀ err, env.runTask = .error err →
      ∃ out, ∀ fuel, main env fuel =
        some ⟨[Call.runTask opts.Cluster opts.TaskDef opts.Name (formatCommand opts.Command)],
          out, Halt.osExit 1⟩) ∧
    (∀ k err, env.describeTasks k = .error err →
      ∃ r, (∀ fuel, k < fuel → main env fuel = some r) ∧
        (k < describeCount r.calls →
          r.halt = Halt.osExit 1 ∧
          ∃ taskArn, r.calls =
            Call.runTask opts.Cluster opts.TaskDef opts.Name (formatCommand opts.Command) ::
              List.replicate (k + 1) (Call.describeTasks opts.Cluster [taskArn]))) := by
  constructor
  · intro err hrun
    rcases hval : validate opts with ⟨out, verr⟩
    rw [hval] at hvalid
    simp only at hvalid
    subst hvalid
    exact ⟨out ++ [parseRunTaskErr err], fun fuel => by simp [main, hargs, hval, hrun]⟩
  · intro k err hk
    rcases main_cases env with ⟨r0, hc0, _, h0⟩ | ⟨opts2, taskArn, out, hargs2, h0⟩
    · exact ⟨r0, fun fuel _ => h0 fuel, fun hlt => by omega⟩
    · have hopts : opts2 = opts := by
        rw [hargs] at hargs2
        injection hargs2 with e
        exact e.symm
      subst hopts
      obtain ⟨r, hr⟩ := pollLoop_terminates env opts2 taskArn
        (env.startAt + timeoutDuration opts2) k 0
        [Call.runTask opts2.Cluster opts2.TaskDef opts2.Name (formatCommand opts2.Command)] out
        (Or.inr (by simp [hk, loopBody]))
      refine ⟨r, ?_, ?_⟩
      · intro fuel hfuel
        apply main_fuel_mono env (k + 1) fuel r _ (by omega)
        rw [h0]; exact hr
      · intro hlt
        obtain ⟨n, hn, hpre, hfin⟩ := pollLoop_finished env opts2 taskArn _ (k + 1) 0 _ _ r hr
        simp only [Nat.zero_add] at hpre hfin
        have hcount : describeCount [Call.runTask opts2.Cluster opts2.TaskDef opts2.Name
            (formatCommand opts2.Command)] = 0 := rfl
        rcases hfin with ⟨_, _, _, hcalls⟩ | ⟨_, hb, hcalls⟩
        · rw [hcalls, describeCount_append, describeCount_replicate, hcount] at hlt
          omega
        · have hkn : n = k := by
            by_contra hne
            have hlt2 : n < k := by omega
            rw [hcalls, describeCount_append, describeCount_replicate, hcount] at hlt
            omega
          subst hkn
          rw [hk] at hb
          simp only [loopBody, Option.some.injEq] at hb
          exact ⟨hb.symm, taskArn, by rw [hcalls]; rfl⟩

/-- C8, on a submission rejected with an access-denied error and on a second
describe call that fails with an error that is no backend error. -/
theorem api_errors_are_fatal_witness :
    (∃ out, ∀ fuel,
      main (failingEnv (some (.aws "AccessDeniedException" "denied")) (.other "EOF")) fuel =
        some ⟨[Call.runTask "c1" "td1" "app" (formatCommand "run job")], out, Halt.osExit 1⟩) ∧
    (∃ r, (∀ fuel, 1 < fuel → main (failingEnv none (.other "EOF")) fuel = some r) ∧
      (1 < describeCount r.calls →
        r.halt = Halt.osExit 1 ∧
        ∃ taskArn, r.calls = Call.runTask "c1" "td1" "app" (formatCommand "run job") ::
          List.replicate (1 + 1) (Call.describeTasks "c1" [taskArn]))) :=
  ⟨(api_errors_are_fatal (failingEnv (some (.aws "AccessDeniedException" "denied"))
      (.other "EOF")) scenarioOpts rfl (by decide)).1 _ rfl,
    (api_errors_are_fatal (failingEnv none (.other "EOF")) scenarioOpts rfl (by decide)).2
      1 (.other "EOF") rfl⟩

/-- C10 at its failing input: the backend answers the submission without an
error and with an empty task list (a placement failure); `main` does not report a
launch error but panics on `runResult.Tasks[0]`, whatever the fuel. -/
theorem placement_rejection_panics :
    placementRejectedEnv.runTask = .ok ⟨[⟨none, some "RESOURCE:MEMORY"⟩], []⟩ ∧
    ∀ fuel, main placementRejectedEnv fuel =
      some ⟨[Call.runTask "c1" "td1" "app" ["run", "job"]],
        [Line.text "Set timeout as 10 sec."], Halt.runtimePanic⟩ :=
  ⟨rfl, fun _ => rfl⟩

end EcsTaskExecutor
